import Mathlib

/-!
Shallow embedding of the `ark-client` reconciliation and ledger-reconstruction
core (`src/ark-client/src/lib.rs`), together with theorems checking the
natural-language specification against it.

Conventions of the embedding:
* machine integers (`u64`, `u32`) become `Nat`; signed timestamps (`i64`,
  `jiff::Timestamp` seconds) become `Int`;
* `bitcoin::Txid`, public keys, networks, descriptor templates and addresses
  are opaque identifiers, represented by `Nat` (wrapped in structures where the
  source has a distinct type);
* fallible operations (`Result<_, Error>`) become `Except Error _`;
* the collaborator traits (`Blockchain`, the gRPC network client, the boarding
  wallet) and the `ark-core` history generators become records of oracle
  functions, since the core only consumes their contracts;
* the single effectful clock read `Timestamp::now()` is modelled by a clock
  oracle `Nat → Int` together with an explicit sample counter, so that how
  often and where the clock is consulted is visible in the model.
-/

namespace ArkClient

/-- A transaction output reference (`bitcoin::OutPoint`): transaction id and
output index. -/
structure OutPoint where
  txid : Nat
  vout : Nat
deriving DecidableEq, Repr

/-- An off-chain value unit as reported by the coordinator
(`ark_core::server::VtxoOutPoint`, declared outside `src/`): output reference,
amount in satoshis, and the `is_pending` flag. Modelled from the spec: the
data model section describes a VTXO as "identified by a transaction-output
reference (transaction id + index), an amount in satoshis, a flag
`is_pending`"; these are exactly the fields the core reads. -/
structure VtxoOutPoint where
  outpoint : OutPoint
  amount : Nat
  is_pending : Bool
deriving DecidableEq, Repr

/-- An on-chain blockchain fact (`ExplorerUtxo` in `lib.rs`): output
reference, amount, optional confirmation time, spent flag. -/
structure ExplorerUtxo where
  outpoint : OutPoint
  amount : Nat
  confirmation_blocktime : Option Nat
  is_spent : Bool
deriving DecidableEq, Repr

/-- Spend status of an on-chain output (`SpendStatus` in `lib.rs`). -/
structure SpendStatus where
  spend_txid : Option Nat
deriving DecidableEq, Repr

/-- The coordinator's answer to a VTXO listing
(`ark_core::server::ListVtxo`): spendable and spent unit sets. -/
structure ListVtxo where
  spendable : List VtxoOutPoint
  spent : List VtxoOutPoint
deriving DecidableEq, Repr

/-- Error type of the client (`ark_client::Error`, declared in `error.rs`
outside `src/`). Modelled from the spec error taxonomy: transport failure,
blockchain-source failure, wallet failure, and ad-hoc internal failures. The
payload distinguishes concrete errors so that propagation "unchanged" is
expressible. -/
inductive Error where
  | transport : Nat → Error
  | chain_source : Nat → Error
  | wallet_failure : Nat → Error
  | ad_hoc : Nat → Error
deriving DecidableEq, Repr

/-- An on-chain address (`bitcoin::Address`), opaque. -/
structure Address where
  id : Nat
deriving DecidableEq, Repr

/-- An Ark (off-chain) address (`ark_core::ArkAddress`). Modelled from the
spec: the derived identity's receiving address is a pure function of
(coordinator public key, owner public key, exit delay, network). -/
structure ArkAddress where
  server : Nat
  owner : Nat
  exit_delay : Nat
  network : Nat
deriving DecidableEq, Repr

/-- The derived identity (`ark_core::default_vtxo::DefaultVtxo`, defined in
the `ark-core` crate, absent from `src/`). Modelled from the spec: "a pure
function of (coordinator public key, owner public key, exit delay, network)
that yields both the receiving address used for off-chain transfers and the
predicate for unilateral-exit eligibility". -/
structure DefaultVtxo where
  server : Nat
  owner : Nat
  exit_delay : Nat
  network : Nat
deriving DecidableEq, Repr

/-- `DefaultVtxo::new` (in `ark-core`, absent from `src/`). Modelled from the
spec: the derived identity is determined by exactly these four parameters
(the secp context argument of the source carries no data). -/
def DefaultVtxo.new (server owner exit_delay network : Nat) : DefaultVtxo :=
  { server := server, owner := owner, exit_delay := exit_delay, network := network }

/-- `DefaultVtxo::to_ark_address` (in `ark-core`, absent from `src/`).
Modelled from the spec: the receiving address is derived from the same four
identity parameters. -/
def DefaultVtxo.to_ark_address (v : DefaultVtxo) : ArkAddress :=
  { server := v.server, owner := v.owner, exit_delay := v.exit_delay, network := v.network }

/-- `DefaultVtxo::address` (in `ark-core`, absent from `src/`): the on-chain
address of the identity's script. Modelled from the spec: the script is
parameterized by the identity parameters; represented by an injective
encoding of them. -/
def DefaultVtxo.address (v : DefaultVtxo) : Address :=
  { id := Nat.pair (Nat.pair v.server v.owner) (Nat.pair v.exit_delay v.network) }

/-- `DefaultVtxo::can_be_claimed_unilaterally_by_owner` (in `ark-core`,
absent from `src/`). Modelled from the spec: the exit-eligibility predicate
takes the current time and the confirmation time (both as durations in
seconds since the epoch) and the identity's configured relative exit delay;
the owner could unilaterally exit once the relative timelock has elapsed,
with the boundary at exactly `confirmation_time + exit_delay`. -/
def DefaultVtxo.can_be_claimed_unilaterally_by_owner
    (v : DefaultVtxo) (now confirmation_blocktime : Nat) : Bool :=
  decide (confirmation_blocktime + v.exit_delay ≤ now)

/-- Aggregate off-chain balance (`OffChainBalance` in `lib.rs`). -/
structure OffChainBalance where
  pending : Nat
  confirmed : Nat
deriving DecidableEq, Repr

/-- `OffChainBalance::default()`: both buckets zero. -/
def OffChainBalance.zero : OffChainBalance :=
  { pending := 0, confirmed := 0 }

/-- `OffChainBalance::total` (`lib.rs` lines 218-220). -/
def OffChainBalance.total (b : OffChainBalance) : Nat :=
  b.pending + b.confirmed

/-- Coordinator parameters retrieved at connection (`ark_core::server::Info`,
fields as read by `lib.rs`). -/
structure ServerInfo where
  pk : Nat
  unilateral_exit_delay : Nat
  network : Nat
  boarding_descriptor_template : Nat
deriving DecidableEq, Repr

/-- The connected client (`Client` in `lib.rs`): the session name, the owner
key pair (represented by its x-only public key) and the coordinator
parameters. The collaborator handles are passed to each operation
explicitly. -/
structure Client where
  name : Nat
  kp_owner_pk : Nat
  server_info : ServerInfo
deriving DecidableEq, Repr

/-- The blockchain source collaborator (`Blockchain` trait in `lib.rs`),
restricted to the operations the reconciliation and history core calls. -/
structure Blockchain where
  find_outpoints : Address → Except Error (List ExplorerUtxo)
  get_output_status : Nat → Nat → Except Error SpendStatus

/-- The coordinator transport collaborator (`ark_grpc::Client`), restricted
to the operation the reconciliation core calls. -/
structure NetworkClient where
  list_vtxos : ArkAddress → Except Error ListVtxo

/-- The boarding output produced by the wallet collaborator
(`ark_core::BoardingOutput`), reduced to the only field read here. -/
structure BoardingOutput where
  address : Address
deriving DecidableEq, Repr

/-- The boarding wallet collaborator (`BoardingWallet` trait), restricted to
`new_boarding_output(server_pk, exit_delay, descriptor_template, network)`. -/
structure Wallet where
  new_boarding_output : Nat → Nat → Nat → Nat → Except Error BoardingOutput

/-- `Client::get_offchain_address` (`lib.rs` lines 292-309). -/
def get_offchain_address (c : Client) : ArkAddress × DefaultVtxo :=
  let server := c.server_info.pk
  let owner := c.kp_owner_pk
  let default_vtxo :=
    DefaultVtxo.new server owner c.server_info.unilateral_exit_delay c.server_info.network
  let ark_address := default_vtxo.to_ark_address
  (ark_address, default_vtxo)

/-- `Client::get_offchain_addresses` (`lib.rs` lines 311-315). -/
def get_offchain_addresses (c : Client) : List (ArkAddress × DefaultVtxo) :=
  [get_offchain_address c]

/-- `Client::get_boarding_address` (`lib.rs` lines 318-328). -/
def get_boarding_address (w : Wallet) (c : Client) : Except Error Address := do
  let boarding_output ← w.new_boarding_output c.server_info.pk
    c.server_info.unilateral_exit_delay c.server_info.boarding_descriptor_template
    c.server_info.network
  .ok boarding_output.address

/-- `Client::get_boarding_addresses` (`lib.rs` lines 330-334). -/
def get_boarding_addresses (w : Wallet) (c : Client) : Except Error (List Address) := do
  let address ← get_boarding_address w c
  .ok [address]

/-- The conversion of the sampled current time to an unsigned duration,
`now.as_duration().try_into().map_err(Error::ad_hoc)` (`lib.rs` line 381):
it fails exactly when the signed timestamp is negative. -/
def convertNow (now : Int) : Except Error Nat :=
  if now < 0 then .error (.ad_hoc 0) else .ok now.toNat

/-- The per-unit body of the reconciliation loop (`lib.rs` lines 370-392):
look up the matching on-chain fact; mirror the `match` on the lookup result.
Returns whether the unit is pushed onto `vtxo_outpoints`. Note that the
guarded first arm and the catch-all arm of the source both push, so the
result is `true` whenever no error occurs; the time conversion inside the
guard is only evaluated when a confirmed matching fact exists. -/
def vtxoOutpointStep (now : Int) (vtxo : DefaultVtxo) (explorer_utxos : List ExplorerUtxo)
    (vtxo_outpoint : VtxoOutPoint) : Except Error Bool :=
  match explorer_utxos.find? (fun explorer_utxo =>
      decide (explorer_utxo.outpoint = vtxo_outpoint.outpoint)) with
  | some u =>
    match u.confirmation_blocktime with
    | some confirmation_blocktime => do
      let now_duration ← convertNow now
      if ! vtxo.can_be_claimed_unilaterally_by_owner now_duration confirmation_blocktime then
        -- First arm of the source `match`: confirmed on chain, exit path inactive: push.
        .ok true
      else
        -- The guard is false, so control falls to the catch-all `_` arm of the
        -- source `match`, which also pushes.
        .ok true
    | none =>
      -- Catch-all arm: matched fact has no confirmation timestamp: push.
      .ok true
  | none =>
    -- Catch-all arm: no matching on-chain fact: push.
    .ok true

/-- The inner reconciliation loop over the coordinator's spendable list
(`lib.rs` lines 369-393), accumulating `vtxo_outpoints`. -/
def filterSpendable (now : Int) (vtxo : DefaultVtxo) (explorer_utxos : List ExplorerUtxo) :
    List VtxoOutPoint → Except Error (List VtxoOutPoint)
  | [] => .ok []
  | vtxo_outpoint :: rest => do
    let keep ← vtxoOutpointStep now vtxo explorer_utxos vtxo_outpoint
    let tail ← filterSpendable now vtxo explorer_utxos rest
    .ok (if keep then vtxo_outpoint :: tail else tail)

/-- The per-identity reconciliation loop (`lib.rs` lines 365-396): list the
coordinator's units for the address, fetch the on-chain facts for the
identity's script address, filter, and pair the result with the identity. -/
def spendableLoop (now : Int) (nc : NetworkClient) (b : Blockchain) :
    List (ArkAddress × DefaultVtxo) → Except Error (List (List VtxoOutPoint × DefaultVtxo))
  | [] => .ok []
  | (address, vtxo) :: rest => do
    let vtxos ← nc.list_vtxos address
    let explorer_utxos ← b.find_outpoints vtxo.address
    let vtxo_outpoints ← filterSpendable now vtxo explorer_utxos vtxos.spendable
    let tail ← spendableLoop now nc b rest
    .ok ((vtxo_outpoints, vtxo) :: tail)

/-- `Client::spendable_vtxos` at a fixed current time (`lib.rs` lines
359-399 with `now` given). -/
def spendable_vtxos_at (now : Int) (nc : NetworkClient) (b : Blockchain) (c : Client) :
    Except Error (List (List VtxoOutPoint × DefaultVtxo)) :=
  spendableLoop now nc b (get_offchain_addresses c)

/-- `Client::spendable_vtxos` (`lib.rs` lines 359-399). The clock oracle and
sample counter model the single `Timestamp::now()` call at line 362: the
current time is read once, before any unit is examined, and the counter
advances by one; the loop body takes the sampled value, not the clock. -/
def spendable_vtxos (clock : Nat → Int) (i : Nat) (nc : NetworkClient) (b : Blockchain)
    (c : Client) : Except Error (List (List VtxoOutPoint × DefaultVtxo)) × Nat :=
  let now := clock i
  (spendableLoop now nc b (get_offchain_addresses c), i + 1)

/-- The balance fold step (`lib.rs` lines 406-415): route the unit's amount
by its `is_pending` flag. -/
def balanceStep (acc : OffChainBalance) (x : VtxoOutPoint) : OffChainBalance :=
  match x.is_pending with
  | true => { acc with pending := acc.pending + x.amount }
  | false => { acc with confirmed := acc.confirmed + x.amount }

/-- The balance aggregation (`lib.rs` lines 403-415): flatten the per-identity
unit lists and fold from `OffChainBalance::default()`. -/
def offchainBalanceSum (list : List (List VtxoOutPoint × DefaultVtxo)) : OffChainBalance :=
  ((list.map Prod.fst).flatten).foldl balanceStep OffChainBalance.zero

/-- `Client::offchain_balance` (`lib.rs` lines 401-418). -/
def offchain_balance (clock : Nat → Int) (i : Nat) (nc : NetworkClient) (b : Blockchain)
    (c : Client) : Except Error OffChainBalance × Nat :=
  match spendable_vtxos clock i nc b c with
  | (.ok list, j) => (.ok (offchainBalanceSum list), j)
  | (.error e, j) => (.error e, j)

/-- The unified transaction-history record (`ark_core::ArkTransaction`,
defined in the `ark-core` crate, absent from `src/`). Modelled from the spec:
"a discriminated union over three shapes — boarding (on-chain deposit:
transaction id, amount, optional confirmation timestamp), incoming off-chain
transfer, outgoing off-chain transfer — each carrying a creation timestamp
used for ordering". -/
inductive ArkTransaction where
  | Boarding (txid : Nat) (amount : Nat) (confirmed_at : Option Int)
  | Incoming (txid : Nat) (amount : Nat) (created_at : Int)
  | Outgoing (txid : Nat) (amount : Nat) (created_at : Int)
deriving DecidableEq, Repr

/-- `ArkTransaction::created_at` (in `ark-core`, absent from `src/`).
Modelled from the spec: each record carries a creation timestamp used for
ordering; for boarding records it is the confirmation timestamp. The spec
leaves the timestamp of an unconfirmed boarding record unspecified; here it
is 0. -/
def ArkTransaction.created_at : ArkTransaction → Int
  | .Boarding _ _ (some t) => t
  | .Boarding _ _ none => 0
  | .Incoming _ _ t => t
  | .Outgoing _ _ t => t

/-- The two history-generation collaborators
(`ark_core::generate_incoming_vtxo_transaction_history` and
`ark_core::generate_outgoing_vtxo_transaction_history`, defined in
`ark-core`, absent from `src/`). Modelled from the spec: the core "delegates
to the two history-generation collaborators — one producing
incoming-transfer records (using spent and spendable unit sets plus the
boarding-transition transaction ids), one producing outgoing-transfer
records (using spent and spendable unit sets only)"; both are fallible. -/
structure HistoryGenerators where
  generate_incoming : List VtxoOutPoint → List VtxoOutPoint → List Nat →
    Except Error (List ArkTransaction)
  generate_outgoing : List VtxoOutPoint → List VtxoOutPoint →
    Except Error (List ArkTransaction)

/-- The per-address accumulation loop of `Client::list_vtxos` (`lib.rs`
lines 336-351): append each coordinator answer onto the accumulator. -/
def listVtxosLoop (nc : NetworkClient) :
    List (ArkAddress × DefaultVtxo) → Except Error ListVtxo
  | [] => .ok { spendable := [], spent := [] }
  | (address, _) :: rest => do
    let list ← nc.list_vtxos address
    let tail ← listVtxosLoop nc rest
    .ok { spendable := list.spendable ++ tail.spendable, spent := list.spent ++ tail.spent }

/-- `Client::list_vtxos` (`lib.rs` lines 336-351). -/
def list_vtxos (nc : NetworkClient) (c : Client) : Except Error ListVtxo :=
  listVtxosLoop nc (get_offchain_addresses c)

/-- The inner loop of `Client::transaction_history` over the on-chain outputs
found at one boarding address (`lib.rs` lines 428-451): emit one boarding
record per output and collect the spending transaction ids as boarding round
transitions. -/
def boardingOutpointsLoop (b : Blockchain) :
    List ExplorerUtxo → Except Error (List ArkTransaction × List Nat)
  | [] => .ok ([], [])
  | u :: rest => do
    let confirmed_at := u.confirmation_blocktime.map Int.ofNat
    let status ← b.get_output_status u.outpoint.txid u.outpoint.vout
    let (txs, rounds) ← boardingOutpointsLoop b rest
    .ok (ArkTransaction.Boarding u.outpoint.txid u.amount confirmed_at :: txs,
      match status.spend_txid with
      | some spend_txid => spend_txid :: rounds
      | none => rounds)

/-- The outer loop of `Client::transaction_history` over the boarding
addresses (`lib.rs` lines 425-452). -/
def boardingAddressesLoop (b : Blockchain) :
    List Address → Except Error (List ArkTransaction × List Nat)
  | [] => .ok ([], [])
  | a :: rest => do
    let outpoints ← b.find_outpoints a
    let (txs, rounds) ← boardingOutpointsLoop b outpoints
    let (txs2, rounds2) ← boardingAddressesLoop b rest
    .ok (txs ++ txs2, rounds ++ rounds2)

/-- The comparison used by `txs.sort_by_key(|a| a.created_at())` (`lib.rs`
line 472): order records by creation timestamp only. -/
def txLE (a b : ArkTransaction) : Bool :=
  decide (a.created_at ≤ b.created_at)

/-- The final sorting step of `Client::transaction_history` (`lib.rs` line
472): Rust's `sort_by_key` is a stable sort, embedded as `List.mergeSort`
(which is stable) keyed on the creation timestamp. -/
def sortTransactions (txs : List ArkTransaction) : List ArkTransaction :=
  txs.mergeSort txLE

/-- `Client::transaction_history` (`lib.rs` lines 420-475). -/
def transaction_history (w : Wallet) (b : Blockchain) (nc : NetworkClient)
    (g : HistoryGenerators) (c : Client) : Except Error (List ArkTransaction) := do
  let boarding_addresses ← get_boarding_addresses w c
  let (boarding_transactions, boarding_round_transactions) ←
    boardingAddressesLoop b boarding_addresses
  let vtxos ← list_vtxos nc c
  let incoming_transactions ←
    g.generate_incoming vtxos.spent vtxos.spendable boarding_round_transactions
  let outgoing_transactions ← g.generate_outgoing vtxos.spent vtxos.spendable
  let txs := boarding_transactions ++ incoming_transactions ++ outgoing_transactions
  .ok (sortTransactions txs)

/-! ### General lemmas about the embedding -/

@[simp] theorem ok_bind {ε α β : Type} (a : α) (f : α → Except ε β) :
    (Except.ok a >>= f) = f a := rfl

@[simp] theorem error_bind {ε α β : Type} (e : ε) (f : α → Except ε β) :
    ((Except.error e : Except ε α) >>= f) = .error e := rfl

/-- Whenever the per-unit reconciliation body succeeds, it keeps the unit:
both the guarded arm and the catch-all arm of the source `match` push. -/
theorem vtxoOutpointStep_ok {now : Int} {vtxo : DefaultVtxo} {eus : List ExplorerUtxo}
    {v : VtxoOutPoint} {keep : Bool}
    (h : vtxoOutpointStep now vtxo eus v = .ok keep) : keep = true := by
  unfold vtxoOutpointStep convertNow at h
  repeat' split at h
  all_goals simp_all

/-- The only error the per-unit body can produce is the time-conversion
failure `Error::ad_hoc`. -/
theorem vtxoOutpointStep_error {now : Int} {vtxo : DefaultVtxo} {eus : List ExplorerUtxo}
    {v : VtxoOutPoint} {e : Error}
    (h : vtxoOutpointStep now vtxo eus v = .error e) : e = .ad_hoc 0 := by
  unfold vtxoOutpointStep convertNow at h
  repeat' split at h
  all_goals simp_all

/-- The per-unit body fails exactly at a confirmed matching on-chain fact
when the sampled time is negative. -/
theorem vtxoOutpointStep_error_of {now : Int} {vtxo : DefaultVtxo} {eus : List ExplorerUtxo}
    {v : VtxoOutPoint} {u : ExplorerUtxo}
    (hneg : now < 0)
    (hfind : eus.find? (fun u2 => decide (u2.outpoint = v.outpoint)) = some u)
    (hconf : u.confirmation_blocktime.isSome) :
    vtxoOutpointStep now vtxo eus v = .error (.ad_hoc 0) := by
  obtain ⟨cb, hcb⟩ := Option.isSome_iff_exists.mp hconf
  unfold vtxoOutpointStep convertNow
  rw [hfind]
  simp [hcb, hneg]

/-- When the inner reconciliation loop succeeds, its output is exactly the
coordinator's spendable list: no reordering, no insertion, and — because
both arms of the source `match` push — no removal either. -/
theorem filterSpendable_ok_eq {now : Int} {vtxo : DefaultVtxo} {eus : List ExplorerUtxo} :
    ∀ {vs out : List VtxoOutPoint}, filterSpendable now vtxo eus vs = .ok out → out = vs := by
  intro vs
  induction vs with
  | nil =>
    intro out h
    unfold filterSpendable at h
    simp_all
  | cons v rest ih =>
    intro out h
    unfold filterSpendable at h
    cases hstep : vtxoOutpointStep now vtxo eus v with
    | error e => rw [hstep] at h; simp_all
    | ok keep =>
      rw [hstep] at h
      have hkeep := vtxoOutpointStep_ok hstep
      subst hkeep
      cases htail : filterSpendable now vtxo eus rest with
      | error e => rw [htail] at h; simp_all
      | ok tail =>
        rw [htail] at h
        simp only [ok_bind] at h
        cases h
        simp [ih htail]

/-- If the sampled time is negative and some unit of the list has a confirmed
matching on-chain fact, the inner reconciliation loop fails with the
time-conversion error. -/
theorem filterSpendable_error_neg {now : Int} {vtxo : DefaultVtxo} {eus : List ExplorerUtxo}
    (hneg : now < 0) :
    ∀ {vs : List VtxoOutPoint},
      (∃ v ∈ vs, ∃ u, eus.find? (fun u2 => decide (u2.outpoint = v.outpoint)) = some u ∧
        u.confirmation_blocktime.isSome) →
      filterSpendable now vtxo eus vs = .error (.ad_hoc 0) := by
  intro vs
  induction vs with
  | nil => rintro ⟨v, hv, -⟩; cases hv
  | cons w rest ih =>
    rintro ⟨v, hv, u, hfind, hconf⟩
    unfold filterSpendable
    rcases List.mem_cons.mp hv with hv | hv
    · subst hv
      rw [vtxoOutpointStep_error_of hneg hfind hconf]
      rfl
    · cases hstep : vtxoOutpointStep now vtxo eus w with
      | error e => obtain rfl := vtxoOutpointStep_error hstep; rfl
      | ok keep =>
        rw [ih ⟨v, hv, u, hfind, hconf⟩]
        rfl

/-! ### Concrete worlds used by counterexamples and witnesses -/

/-- A session whose derived identity has exit delay 10 s on network 0. -/
def clientEx : Client :=
  { name := 0, kp_owner_pk := 2,
    server_info :=
      { pk := 1, unilateral_exit_delay := 10, network := 0, boarding_descriptor_template := 7 } }

/-- The derived identity of `clientEx`. -/
def vtxoEx : DefaultVtxo := DefaultVtxo.new 1 2 10 0

/-- A coordinator-reported spendable unit at outpoint (5, 0). -/
def unitEx : VtxoOutPoint :=
  { outpoint := { txid := 5, vout := 0 }, amount := 1000, is_pending := false }

/-- An on-chain fact for outpoint (5, 0), confirmed at blocktime 0. -/
def utxoEx : ExplorerUtxo :=
  { outpoint := { txid := 5, vout := 0 }, amount := 1000,
    confirmation_blocktime := some 0, is_spent := false }

/-- A coordinator transport reporting `unitEx` as spendable everywhere. -/
def ncEx : NetworkClient :=
  { list_vtxos := fun _ => .ok { spendable := [unitEx], spent := [] } }

/-- A blockchain source reporting `utxoEx` everywhere, with unspent status. -/
def bEx : Blockchain :=
  { find_outpoints := fun _ => .ok [utxoEx],
    get_output_status := fun _ _ => .ok { spend_txid := none } }

/-! ### C1 -/

/-- C1: the claim fails on the code. With the identity's exit delay 10 s, a
unit confirmed on chain at blocktime 0 and the current time 100 s, the
exit-eligibility predicate says the owner could now unilaterally exit, yet
`spendable_vtxos` still returns the unit in the spendable set: the guarded
first arm of the source `match` refuses to push only for the guard to fall
through to the catch-all arm, which pushes every unit. The code contradicts
its own arm comments ("Include VTXOs ... whose exit path is still inactive";
the catch-all arm is commented as handling only unconfirmed units) and the
spec's exclusion rule. -/
theorem spendable_vtxos_keeps_exit_eligible_unit :
    vtxoEx.can_be_claimed_unilaterally_by_owner 100 0 = true
    ∧ spendable_vtxos_at 100 ncEx bEx clientEx = .ok [([unitEx], vtxoEx)] := by
  constructor
  · decide
  · rfl

/-! ### C4 -/

/-- C4: a unit with no matching on-chain fact, or whose matching fact has no
confirmation timestamp, is included in the spendable set unconditionally: the
per-unit body keeps it without consulting the clock (no time-conversion
failure is possible for it), and whenever the reconciliation loop returns a
spendable set containing the coordinator's list, such a unit is in it. -/
theorem spendable_vtxos_includes_unmatched_or_unconfirmed
    (now : Int) (vtxo : DefaultVtxo) (eus : List ExplorerUtxo) (v : VtxoOutPoint)
    (h : eus.find? (fun u2 => decide (u2.outpoint = v.outpoint)) = none ∨
      ∃ u, eus.find? (fun u2 => decide (u2.outpoint = v.outpoint)) = some u ∧
        u.confirmation_blocktime = none) :
    vtxoOutpointStep now vtxo eus v = .ok true
    ∧ ∀ vs out, filterSpendable now vtxo eus vs = .ok out → v ∈ vs → v ∈ out := by
  constructor
  · unfold vtxoOutpointStep
    rcases h with h | ⟨u, hfind, hnone⟩
    · rw [h]
    · rw [hfind]
      simp [hnone]
  · intro vs out hok hv
    rw [filterSpendable_ok_eq hok]
    exact hv

/-- Witness for C4: a unit with no on-chain match at all is kept. -/
theorem spendable_vtxos_includes_unmatched_or_unconfirmed_witness :
    vtxoOutpointStep (-3) vtxoEx [] unitEx = .ok true ∧ unitEx ∈ [unitEx] :=
  ⟨(spendable_vtxos_includes_unmatched_or_unconfirmed (-3) vtxoEx [] unitEx
      (Or.inl rfl)).1,
    (spendable_vtxos_includes_unmatched_or_unconfirmed (-3) vtxoEx [] unitEx
      (Or.inl rfl)).2 [unitEx] [unitEx] rfl (List.mem_singleton.mpr rfl)⟩

/-! ### C7 -/

/-- C7: off-chain identity derivation is a pure function of the coordinator
public key, the owner public key, the relative exit delay and the network:
two sessions agreeing on those four parameters derive the same Ark address
and the same default-VTXO template, whatever their other state. -/
theorem get_offchain_address_deterministic
    (c1 c2 : Client)
    (hpk : c1.server_info.pk = c2.server_info.pk)
    (howner : c1.kp_owner_pk = c2.kp_owner_pk)
    (hdelay : c1.server_info.unilateral_exit_delay = c2.server_info.unilateral_exit_delay)
    (hnet : c1.server_info.network = c2.server_info.network) :
    get_offchain_address c1 = get_offchain_address c2 := by
  unfold get_offchain_address DefaultVtxo.new DefaultVtxo.to_ark_address
  rw [hpk, howner, hdelay, hnet]

/-- Witness for C7: sessions differing in name and boarding descriptor
template still derive the same identity. -/
theorem get_offchain_address_deterministic_witness :
    get_offchain_address clientEx =
      get_offchain_address
        { name := 9, kp_owner_pk := 2,
          server_info :=
            { pk := 1, unilateral_exit_delay := 10, network := 0,
              boarding_descriptor_template := 8 } } :=
  get_offchain_address_deterministic _ _ rfl rfl rfl rfl

/-! ### C8 -/

/-- C8: exactly one canonical identity per session: the plural accessors
return singleton lists built from the singular derivations. -/
theorem single_canonical_identity (w : Wallet) (c : Client) :
    get_offchain_addresses c = [get_offchain_address c]
    ∧ get_boarding_addresses w c = (get_boarding_address w c).map (fun a => [a]) := by
  refine ⟨rfl, ?_⟩
  unfold get_boarding_addresses
  cases h : get_boarding_address w c <;> simp [h, Except.map]

/-! ### C2 -/

/-- The pending bucket of the balance fold accumulates exactly the amounts of
the units flagged `is_pending`. -/
theorem balanceFoldPending :
    ∀ (vs : List VtxoOutPoint) (acc : OffChainBalance),
      (vs.foldl balanceStep acc).pending =
        acc.pending + ((vs.filter (fun v => v.is_pending)).map VtxoOutPoint.amount).sum := by
  intro vs
  induction vs with
  | nil => intro acc; simp
  | cons v rest ih =>
    intro acc
    cases hp : v.is_pending <;>
      simp [balanceStep, hp, ih, Nat.add_assoc]

/-- The confirmed bucket of the balance fold accumulates exactly the amounts
of the units not flagged `is_pending`. -/
theorem balanceFoldConfirmed :
    ∀ (vs : List VtxoOutPoint) (acc : OffChainBalance),
      (vs.foldl balanceStep acc).confirmed =
        acc.confirmed + ((vs.filter (fun v => ! v.is_pending)).map VtxoOutPoint.amount).sum := by
  intro vs
  induction vs with
  | nil => intro acc; simp
  | cons v rest ih =>
    intro acc
    cases hp : v.is_pending <;>
      simp [balanceStep, hp, ih, Nat.add_assoc]

/-- C2: for every possible spendable set, the aggregated balance satisfies
`pending + confirmed = total`, and each unit's amount lands in exactly one
bucket chosen solely by its `is_pending` flag: the pending bucket is the sum
over units with the flag set, the confirmed bucket the sum over the others —
the fold never consults the on-chain confirmation status. -/
theorem offchain_balance_partition (list : List (List VtxoOutPoint × DefaultVtxo)) :
    (offchainBalanceSum list).pending + (offchainBalanceSum list).confirmed
        = (offchainBalanceSum list).total
    ∧ (offchainBalanceSum list).pending =
        ((((list.map Prod.fst).flatten).filter (fun v => v.is_pending)).map
          VtxoOutPoint.amount).sum
    ∧ (offchainBalanceSum list).confirmed =
        ((((list.map Prod.fst).flatten).filter (fun v => ! v.is_pending)).map
          VtxoOutPoint.amount).sum := by
  refine ⟨rfl, ?_, ?_⟩
  · unfold offchainBalanceSum
    rw [balanceFoldPending]
    simp [OffChainBalance.zero]
  · unfold offchainBalanceSum
    rw [balanceFoldConfirmed]
    simp [OffChainBalance.zero]

/-! ### C9 -/

/-- C9: reconciliation only ever selects among the units the coordinator
reported as spendable: the inner loop's output is a sublist (an ordered
sub-multiset) of the reported spendable list, and every per-identity set
returned by `spendable_vtxos` is a sublist of the corresponding coordinator
answer — a unit from the coordinator's spent list, or any unit the
coordinator did not report, is never added. -/
theorem spendable_subset_of_reported :
    (∀ (now : Int) (vtxo : DefaultVtxo) (eus : List ExplorerUtxo)
        (vs out : List VtxoOutPoint),
      filterSpendable now vtxo eus vs = .ok out → out.Sublist vs)
    ∧ ∀ (now : Int) (nc : NetworkClient) (b : Blockchain) (c : Client)
        (res : List (List VtxoOutPoint × DefaultVtxo)),
        spendable_vtxos_at now nc b c = .ok res →
        ∀ pr ∈ res, ∃ lv, nc.list_vtxos (get_offchain_address c).1 = .ok lv
          ∧ pr.1.Sublist lv.spendable := by
  constructor
  · intro now vtxo eus vs out h
    rw [filterSpendable_ok_eq h]
  · intro now nc b c res h pr hpr
    unfold spendable_vtxos_at get_offchain_addresses at h
    cases hga : get_offchain_address c with
    | mk addr vtxo =>
      rw [hga] at h
      unfold spendableLoop at h
      cases hlv : nc.list_vtxos addr with
      | error e => rw [hlv] at h; simp_all
      | ok lv =>
        rw [hlv] at h
        simp only [ok_bind] at h
        cases hfo : b.find_outpoints vtxo.address with
        | error e => rw [hfo] at h; simp_all
        | ok eus =>
          rw [hfo] at h
          simp only [ok_bind] at h
          cases hfs : filterSpendable now vtxo eus lv.spendable with
          | error e => rw [hfs] at h; simp_all
          | ok out =>
            rw [hfs] at h
            unfold spendableLoop at h
            simp only [ok_bind] at h
            have hres : res = [(out, vtxo)] := by
              cases h
              rfl
            subst hres
            rcases List.mem_singleton.mp hpr with rfl
            exact ⟨lv, rfl, by rw [filterSpendable_ok_eq hfs]⟩

/-- Witness for C9. -/
theorem spendable_subset_of_reported_witness :
    ([unitEx] : List VtxoOutPoint).Sublist [unitEx]
    ∧ ∃ lv, ncEx.list_vtxos (get_offchain_address clientEx).1 = .ok lv
        ∧ ([unitEx] : List VtxoOutPoint).Sublist lv.spendable :=
  ⟨spendable_subset_of_reported.1 100 vtxoEx [utxoEx] [unitEx] [unitEx] rfl,
    spendable_subset_of_reported.2 100 ncEx bEx clientEx [([unitEx], vtxoEx)] rfl
      ([unitEx], vtxoEx) (List.mem_singleton.mpr rfl)⟩

/-! ### C10 -/

/-- C10: within one `spendable_vtxos` call the clock is sampled exactly once,
at the start: the sample counter advances by one, the result is that of the
fixed-time reconciliation at the first sampled value, and two clocks that
agree on that one reading give identical results — no unit is judged against
a later clock reading than another. -/
theorem now_sampled_once (c1 c2 : Nat → Int) (i : Nat) (nc : NetworkClient)
    (b : Blockchain) (cl : Client) (h : c1 i = c2 i) :
    spendable_vtxos c1 i nc b cl = spendable_vtxos c2 i nc b cl
    ∧ spendable_vtxos c1 i nc b cl = (spendable_vtxos_at (c1 i) nc b cl, i + 1) := by
  unfold spendable_vtxos spendable_vtxos_at
  rw [h]
  exact ⟨rfl, rfl⟩

/-- Witness for C10: two clocks agreeing only at the sampled index. -/
theorem now_sampled_once_witness :
    (fun _ : Nat => (100 : Int)) 0 = (fun n : Nat => if n = 0 then (100 : Int) else 99) 0
    ∧ spendable_vtxos (fun _ => 100) 0 ncEx bEx clientEx
        = spendable_vtxos (fun n => if n = 0 then 100 else 99) 0 ncEx bEx clientEx
    ∧ spendable_vtxos (fun _ => 100) 0 ncEx bEx clientEx
        = (spendable_vtxos_at ((fun _ : Nat => (100 : Int)) 0) ncEx bEx clientEx, 0 + 1) :=
  ⟨rfl,
    (now_sampled_once (fun _ => 100) (fun n => if n = 0 then 100 else 99) 0 ncEx bEx
      clientEx rfl).1,
    (now_sampled_once (fun _ => 100) (fun n => if n = 0 then 100 else 99) 0 ncEx bEx
      clientEx rfl).2⟩

/-! ### C3 -/

/-- The history ordering is transitive. -/
theorem txLE_trans : ∀ (a b c : ArkTransaction), txLE a b → txLE b c → txLE a c := by
  intro a b c hab hbc
  simp only [txLE, decide_eq_true_eq] at *
  exact le_trans hab hbc

/-- The history ordering is total. -/
theorem txLE_total : ∀ (a b : ArkTransaction), txLE a b || txLE b a := by
  intro a b
  simp only [txLE, Bool.or_eq_true, decide_eq_true_eq]
  exact le_total _ _

/-- Stability of the history sort, as a filter characterization: the records
carrying any given timestamp come out of the sort exactly as they went in. -/
theorem mergeSort_filter_key (l : List ArkTransaction) (t : Int) :
    (l.mergeSort txLE).filter (fun x => decide (x.created_at = t))
      = l.filter (fun x => decide (x.created_at = t)) := by
  have hall : ∀ x ∈ l.filter (fun x => decide (x.created_at = t)), x.created_at = t := by
    intro x hx
    simpa using (List.mem_filter.mp hx).2
  have hc : (l.filter (fun x => decide (x.created_at = t))).Pairwise
      (fun a b => txLE a b) := by
    apply List.pairwise_of_forall_mem_list
    intro a ha b hb
    simp only [txLE, decide_eq_true_eq]
    rw [hall a ha, hall b hb]
  have hsub : List.Sublist (l.filter (fun x => decide (x.created_at = t)))
      (l.mergeSort txLE) :=
    List.sublist_mergeSort txLE_trans txLE_total hc (List.filter_sublist l)
  have hsub2 : List.Sublist (l.filter (fun x => decide (x.created_at = t)))
      ((l.mergeSort txLE).filter (fun x => decide (x.created_at = t))) := by
    have h2 := hsub.filter (fun x => decide (x.created_at = t))
    rwa [List.filter_eq_self.mpr (fun a ha => by simp [hall a ha])] at h2
  have hlen : ((l.mergeSort txLE).filter (fun x => decide (x.created_at = t))).length
      = (l.filter (fun x => decide (x.created_at = t))).length :=
    ((List.mergeSort_perm l txLE).filter _).length_eq
  exact (hsub2.eq_of_length hlen.symm).symm

/-- C3: the history is the concatenation boarding ++ incoming ++ outgoing,
stably sorted by creation timestamp only: the output is sorted ascending;
for each timestamp the records carrying it appear exactly in concatenation
order (boarding first, then incoming, then outgoing, each group in insertion
order); and every successful `transaction_history` result has this shape. -/
theorem transaction_history_stable_sort
    (boarding incoming outgoing : List ArkTransaction) :
    (sortTransactions (boarding ++ incoming ++ outgoing)).Pairwise
        (fun a b => a.created_at ≤ b.created_at)
    ∧ (∀ t : Int,
        (sortTransactions (boarding ++ incoming ++ outgoing)).filter
            (fun x => decide (x.created_at = t))
          = (boarding ++ incoming ++ outgoing).filter
              (fun x => decide (x.created_at = t)))
    ∧ ∀ (w : Wallet) (b : Blockchain) (nc : NetworkClient) (g : HistoryGenerators)
        (c : Client) (txs : List ArkTransaction),
        transaction_history w b nc g c = .ok txs →
        ∃ bs inc outg, txs = sortTransactions (bs ++ inc ++ outg) := by
  refine ⟨?_, ?_, ?_⟩
  · have h := List.sorted_mergeSort txLE_trans txLE_total
      (boarding ++ incoming ++ outgoing)
    exact h.imp (fun hab => by simpa [txLE] using hab)
  · intro t
    exact mergeSort_filter_key (boarding ++ incoming ++ outgoing) t
  · intro w b nc g c txs h
    unfold transaction_history at h
    cases ha : get_boarding_addresses w c with
    | error e => rw [ha] at h; simp_all
    | ok addrs =>
      rw [ha] at h
      simp only [ok_bind] at h
      cases hb : boardingAddressesLoop b addrs with
      | error e => rw [hb] at h; simp_all
      | ok pr =>
        rw [hb] at h
        obtain ⟨btxs, rounds⟩ := pr
        simp only [ok_bind] at h
        cases hv : list_vtxos nc c with
        | error e => rw [hv] at h; simp_all
        | ok lv =>
          rw [hv] at h
          simp only [ok_bind] at h
          cases hi : g.generate_incoming lv.spent lv.spendable rounds with
          | error e => rw [hi] at h; simp_all
          | ok inc =>
            rw [hi] at h
            simp only [ok_bind] at h
            cases ho : g.generate_outgoing lv.spent lv.spendable with
            | error e => rw [ho] at h; simp_all
            | ok outg =>
              rw [ho] at h
              simp only [ok_bind] at h
              exact ⟨btxs, inc, outg, (Except.ok.inj h).symm⟩

/-- A wallet whose boarding derivation always succeeds. -/
def walletTr : Wallet :=
  { new_boarding_output := fun _ _ _ _ => .ok { address := { id := 3 } } }

/-- A blockchain source with no outputs anywhere. -/
def bTr : Blockchain :=
  { find_outpoints := fun _ => .ok [],
    get_output_status := fun _ _ => .ok { spend_txid := none } }

/-- A coordinator transport reporting no units. -/
def ncTr : NetworkClient :=
  { list_vtxos := fun _ => .ok { spendable := [], spent := [] } }

/-- History generators producing no records. -/
def gTr : HistoryGenerators :=
  { generate_incoming := fun _ _ _ => .ok [],
    generate_outgoing := fun _ _ => .ok [] }

/-- Witness for C3: a successful history call, and its result has the sorted
concatenation shape. -/
theorem transaction_history_stable_sort_witness :
    transaction_history walletTr bTr ncTr gTr clientEx = .ok []
    ∧ ∃ bs inc outg, ([] : List ArkTransaction) = sortTransactions (bs ++ inc ++ outg) := by
  have h : transaction_history walletTr bTr ncTr gTr clientEx = .ok [] := by
    simp [transaction_history, get_boarding_addresses, get_boarding_address, walletTr,
      bTr, ncTr, gTr, boardingAddressesLoop, boardingOutpointsLoop, list_vtxos,
      listVtxosLoop, get_offchain_addresses, sortTransactions]
  exact ⟨h,
    (transaction_history_stable_sort [] [] []).2.2 walletTr bTr ncTr gTr clientEx [] h⟩

/-! ### C6 -/

/-- When every spend-status query succeeds, the boarding loop emits exactly
one boarding record per on-chain output and collects exactly the reported
spending transaction ids, in order. -/
theorem boardingOutpointsLoopOk (b : Blockchain) (statusOf : ExplorerUtxo → SpendStatus) :
    ∀ us : List ExplorerUtxo,
      (∀ u ∈ us, b.get_output_status u.outpoint.txid u.outpoint.vout = .ok (statusOf u)) →
      boardingOutpointsLoop b us =
        .ok (us.map (fun u => ArkTransaction.Boarding u.outpoint.txid u.amount
              (u.confirmation_blocktime.map Int.ofNat)),
          us.filterMap (fun u => (statusOf u).spend_txid)) := by
  intro us
  induction us with
  | nil => intro _; rfl
  | cons u rest ih =>
    intro h
    unfold boardingOutpointsLoop
    rw [h u (List.mem_cons_self u rest)]
    simp only [ok_bind]
    rw [ih (fun u2 hu2 => h u2 (List.mem_cons_of_mem u hu2))]
    simp only [ok_bind]
    cases hs : (statusOf u).spend_txid <;> simp [hs]

/-- C6: every on-chain output found at a boarding address yields exactly one
boarding record carrying its transaction id, amount and optional
confirmation timestamp; every reported spending transaction id lands in the
boarding-round-transition list; and a successful `transaction_history`
passes exactly that transition list to the incoming-transfer generator, so
the deposit's absorption is not re-classified as an independent incoming
transfer. -/
theorem boarding_records_and_transitions
    (b : Blockchain) (us : List ExplorerUtxo) (statusOf : ExplorerUtxo → SpendStatus)
    (hst : ∀ u ∈ us, b.get_output_status u.outpoint.txid u.outpoint.vout = .ok (statusOf u)) :
    boardingOutpointsLoop b us =
      .ok (us.map (fun u => ArkTransaction.Boarding u.outpoint.txid u.amount
            (u.confirmation_blocktime.map Int.ofNat)),
        us.filterMap (fun u => (statusOf u).spend_txid))
    ∧ (∀ u ∈ us, ∀ t, (statusOf u).spend_txid = some t →
        t ∈ us.filterMap (fun u2 => (statusOf u2).spend_txid))
    ∧ ∀ (w : Wallet) (nc : NetworkClient) (g : HistoryGenerators) (c : Client)
        (a : Address) (lv : ListVtxo) (inc outg : List ArkTransaction),
        get_boarding_address w c = .ok a →
        b.find_outpoints a = .ok us →
        nc.list_vtxos (get_offchain_address c).1 = .ok lv →
        g.generate_incoming lv.spent lv.spendable
            (us.filterMap (fun u => (statusOf u).spend_txid)) = .ok inc →
        g.generate_outgoing lv.spent lv.spendable = .ok outg →
        transaction_history w b nc g c =
          .ok (sortTransactions
            (us.map (fun u => ArkTransaction.Boarding u.outpoint.txid u.amount
              (u.confirmation_blocktime.map Int.ofNat)) ++ inc ++ outg)) := by
  refine ⟨boardingOutpointsLoopOk b statusOf us hst, ?_, ?_⟩
  · intro u hu t ht
    exact List.mem_filterMap.mpr ⟨u, hu, ht⟩
  · intro w nc g c a lv inc outg hw hf hnc hi ho
    have hba : get_boarding_addresses w c = .ok [a] := by
      unfold get_boarding_addresses
      rw [hw]
      rfl
    have hbl : boardingAddressesLoop b [a] =
        .ok (us.map (fun u => ArkTransaction.Boarding u.outpoint.txid u.amount
              (u.confirmation_blocktime.map Int.ofNat)),
          us.filterMap (fun u => (statusOf u).spend_txid)) := by
      unfold boardingAddressesLoop
      rw [hf]
      simp only [ok_bind]
      rw [boardingOutpointsLoopOk b statusOf us hst]
      simp only [ok_bind]
      unfold boardingAddressesLoop
      simp
    have hlv2 : list_vtxos nc c = .ok lv := by
      cases hga : get_offchain_address c with
      | mk addr vtxo =>
        have hnc2 : nc.list_vtxos addr = .ok lv := by rw [hga] at hnc; exact hnc
        unfold list_vtxos get_offchain_addresses
        rw [hga]
        simp [listVtxosLoop, hnc2]
    unfold transaction_history
    rw [hba]
    simp only [ok_bind]
    rw [hbl]
    simp only [ok_bind]
    rw [hlv2]
    simp only [ok_bind]
    rw [hi]
    simp only [ok_bind]
    rw [ho]
    rfl

/-- A spent boarding output: outpoint (9, 0), 500 sats, confirmed at 3. -/
def utxoSpent : ExplorerUtxo :=
  { outpoint := { txid := 9, vout := 0 }, amount := 500,
    confirmation_blocktime := some 3, is_spent := true }

/-- A blockchain source showing `utxoSpent` everywhere, spent by txid 11. -/
def bSpent : Blockchain :=
  { find_outpoints := fun _ => .ok [utxoSpent],
    get_output_status := fun _ _ => .ok { spend_txid := some 11 } }

/-- Witness for C6: one confirmed, spent boarding deposit produces one
boarding record, its spending txid 11 reaches the transition list, and the
history call succeeds with the expected shape. -/
theorem boarding_records_and_transitions_witness :
    boardingOutpointsLoop bSpent [utxoSpent] =
      .ok ([ArkTransaction.Boarding 9 500 (some 3)], [11])
    ∧ (11 : Nat) ∈
        ([utxoSpent].filterMap (fun u =>
          ((fun _ : ExplorerUtxo => ({ spend_txid := some 11 } : SpendStatus)) u).spend_txid))
    ∧ transaction_history walletTr bSpent ncTr gTr clientEx =
        .ok (sortTransactions ([ArkTransaction.Boarding 9 500 (some 3)] ++ [] ++ [])) := by
  have h := boarding_records_and_transitions bSpent [utxoSpent]
    (fun _ => { spend_txid := some 11 }) (fun u _ => rfl)
  exact ⟨h.1, h.2.1 utxoSpent (List.mem_singleton.mpr rfl) 11 rfl,
    h.2.2 walletTr ncTr gTr clientEx { id := 3 } { spendable := [], spent := [] } [] []
      rfl rfl rfl rfl rfl⟩

/-! ### C5 -/

/-- Unfolding of the per-identity reconciliation loop at the single derived
identity. -/
theorem spendableLoopSingle (now : Int) (nc : NetworkClient) (b : Blockchain)
    (addr : ArkAddress) (vtxo : DefaultVtxo) :
    spendableLoop now nc b [(addr, vtxo)] = (do
      let vtxos ← nc.list_vtxos addr
      let explorer_utxos ← b.find_outpoints vtxo.address
      let vtxo_outpoints ← filterSpendable now vtxo explorer_utxos vtxos.spendable
      Except.ok [(vtxo_outpoints, vtxo)]) := by
  unfold spendableLoop
  cases h : nc.list_vtxos addr with
  | error e => rfl
  | ok lv =>
    simp only [ok_bind]
    cases hf : b.find_outpoints vtxo.address with
    | error e => rfl
    | ok eus =>
      simp only [ok_bind]
      cases hfs : filterSpendable now vtxo eus lv.spendable with
      | error e => rfl
      | ok out => rfl

/-- Unfolding of `transaction_history` once the single boarding address is
known. -/
theorem transactionHistoryEq (w : Wallet) (b : Blockchain) (nc : NetworkClient)
    (g : HistoryGenerators) (c : Client) (a : Address)
    (hw : get_boarding_address w c = .ok a) :
    transaction_history w b nc g c = (do
      let pr ← boardingAddressesLoop b [a]
      let vtxos ← list_vtxos nc c
      let incoming_transactions ←
        g.generate_incoming vtxos.spent vtxos.spendable pr.2
      let outgoing_transactions ← g.generate_outgoing vtxos.spent vtxos.spendable
      Except.ok
        (sortTransactions (pr.1 ++ incoming_transactions ++ outgoing_transactions))) := by
  unfold transaction_history get_boarding_addresses
  rw [hw]
  rfl

/-- A coordinator-listing failure surfaces from `Client::list_vtxos`. -/
theorem listVtxosSingleErr (nc : NetworkClient) (c : Client) (e : Error)
    (h : nc.list_vtxos (get_offchain_address c).1 = .error e) :
    list_vtxos nc c = .error e := by
  cases hga : get_offchain_address c with
  | mk addr vtxo =>
    have h2 : nc.list_vtxos addr = .error e := by rw [hga] at h; exact h
    unfold list_vtxos get_offchain_addresses
    rw [hga]
    simp [listVtxosLoop, h2]

/-- A successful coordinator listing passes through `Client::list_vtxos`
unchanged (for the single derived identity). -/
theorem listVtxosSingleOk (nc : NetworkClient) (c : Client) (lv : ListVtxo)
    (h : nc.list_vtxos (get_offchain_address c).1 = .ok lv) :
    list_vtxos nc c = .ok lv := by
  cases hga : get_offchain_address c with
  | mk addr vtxo =>
    have h2 : nc.list_vtxos addr = .ok lv := by rw [hga] at h; exact h
    unfold list_vtxos get_offchain_addresses
    rw [hga]
    simp [listVtxosLoop, h2]

/-- A spend-status failure at any position of the outpoint list, with every
earlier status query succeeding, fails the whole boarding loop with that
error. -/
theorem boardingOutpointsLoopErrorAt (b : Blockchain) (e : Error) :
    ∀ (us1 : List ExplorerUtxo) (u : ExplorerUtxo) (us2 : List ExplorerUtxo),
      (∀ u2 ∈ us1, ∃ s, b.get_output_status u2.outpoint.txid u2.outpoint.vout = .ok s) →
      b.get_output_status u.outpoint.txid u.outpoint.vout = .error e →
      boardingOutpointsLoop b (us1 ++ u :: us2) = .error e := by
  intro us1
  induction us1 with
  | nil =>
    intro u us2 _ he
    rw [List.nil_append]
    unfold boardingOutpointsLoop
    rw [he]
    rfl
  | cons u0 rest ih =>
    intro u us2 h he
    rw [List.cons_append]
    unfold boardingOutpointsLoop
    obtain ⟨s, hs⟩ := h u0 (List.mem_cons_self u0 rest)
    rw [hs]
    simp only [ok_bind]
    rw [ih u us2 (fun u2 hu2 => h u2 (List.mem_cons_of_mem u0 hu2)) he]
    rfl

/-- The boarding outer loop at the single boarding address, when the
blockchain source and every status query succeed. -/
theorem boardingAddressesLoopSingleOk (b : Blockchain) (a : Address)
    (us : List ExplorerUtxo) (statusOf : ExplorerUtxo → SpendStatus)
    (hf : b.find_outpoints a = .ok us)
    (hst : ∀ u ∈ us, b.get_output_status u.outpoint.txid u.outpoint.vout = .ok (statusOf u)) :
    boardingAddressesLoop b [a] =
      .ok (us.map (fun u => ArkTransaction.Boarding u.outpoint.txid u.amount
            (u.confirmation_blocktime.map Int.ofNat)),
        us.filterMap (fun u => (statusOf u).spend_txid)) := by
  unfold boardingAddressesLoop
  rw [hf]
  simp only [ok_bind]
  rw [boardingOutpointsLoopOk b statusOf us hst]
  simp only [ok_bind]
  unfold boardingAddressesLoop
  simp

/-- C5: failures of any collaborator call or internal step propagate
unchanged to the caller of the aggregate operation, which yields no partial
result: (a) a coordinator-listing failure, (b) a blockchain-lookup failure
and (c) the current-time-to-duration conversion failure each fail
`spendable_vtxos` with that error; (d) a failed reconciliation fails
`offchain_balance` with the same error; (e) a wallet failure, (f) a
blockchain-lookup failure, (g) a spend-status failure at any position,
(h) a coordinator-listing failure, (i) an incoming-generator failure and
(j) an outgoing-generator failure each fail `transaction_history` with that
error. -/
theorem aggregate_error_propagation (clock : Nat → Int) (i : Nat) (nc : NetworkClient)
    (b : Blockchain) (w : Wallet) (g : HistoryGenerators) (c : Client) (e : Error) :
    (nc.list_vtxos (get_offchain_address c).1 = .error e →
      spendable_vtxos clock i nc b c = (.error e, i + 1))
    ∧ (∀ lv, nc.list_vtxos (get_offchain_address c).1 = .ok lv →
        b.find_outpoints (get_offchain_address c).2.address = .error e →
        spendable_vtxos clock i nc b c = (.error e, i + 1))
    ∧ (∀ lv eus, nc.list_vtxos (get_offchain_address c).1 = .ok lv →
        b.find_outpoints (get_offchain_address c).2.address = .ok eus →
        clock i < 0 →
        (∃ v ∈ lv.spendable, ∃ u,
          eus.find? (fun u2 => decide (u2.outpoint = v.outpoint)) = some u ∧
            u.confirmation_blocktime.isSome) →
        spendable_vtxos clock i nc b c = (.error (.ad_hoc 0), i + 1))
    ∧ (∀ j, spendable_vtxos clock i nc b c = (.error e, j) →
        offchain_balance clock i nc b c = (.error e, j))
    ∧ (w.new_boarding_output c.server_info.pk c.server_info.unilateral_exit_delay
          c.server_info.boarding_descriptor_template c.server_info.network = .error e →
        transaction_history w b nc g c = .error e)
    ∧ (∀ a, get_boarding_address w c = .ok a →
        b.find_outpoints a = .error e →
        transaction_history w b nc g c = .error e)
    ∧ (∀ a us1 u us2, get_boarding_address w c = .ok a →
        b.find_outpoints a = .ok (us1 ++ u :: us2) →
        (∀ u2 ∈ us1, ∃ s, b.get_output_status u2.outpoint.txid u2.outpoint.vout = .ok s) →
        b.get_output_status u.outpoint.txid u.outpoint.vout = .error e →
        transaction_history w b nc g c = .error e)
    ∧ (∀ a us (statusOf : ExplorerUtxo → SpendStatus), get_boarding_address w c = .ok a →
        b.find_outpoints a = .ok us →
        (∀ u ∈ us, b.get_output_status u.outpoint.txid u.outpoint.vout = .ok (statusOf u)) →
        nc.list_vtxos (get_offchain_address c).1 = .error e →
        transaction_history w b nc g c = .error e)
    ∧ (∀ a us (statusOf : ExplorerUtxo → SpendStatus) lv, get_boarding_address w c = .ok a →
        b.find_outpoints a = .ok us →
        (∀ u ∈ us, b.get_output_status u.outpoint.txid u.outpoint.vout = .ok (statusOf u)) →
        nc.list_vtxos (get_offchain_address c).1 = .ok lv →
        g.generate_incoming lv.spent lv.spendable
          (us.filterMap (fun u => (statusOf u).spend_txid)) = .error e →
        transaction_history w b nc g c = .error e)
    ∧ (∀ a us (statusOf : ExplorerUtxo → SpendStatus) lv inc, get_boarding_address w c = .ok a →
        b.find_outpoints a = .ok us →
        (∀ u ∈ us, b.get_output_status u.outpoint.txid u.outpoint.vout = .ok (statusOf u)) →
        nc.list_vtxos (get_offchain_address c).1 = .ok lv →
        g.generate_incoming lv.spent lv.spendable
          (us.filterMap (fun u => (statusOf u).spend_txid)) = .ok inc →
        g.generate_outgoing lv.spent lv.spendable = .error e →
        transaction_history w b nc g c = .error e) := by
  refine ⟨?_, ?_, ?_, ?_, ?_, ?_, ?_, ?_, ?_, ?_⟩
  · intro h
    cases hga : get_offchain_address c with
    | mk addr vtxo =>
      have h2 : nc.list_vtxos addr = .error e := by rw [hga] at h; exact h
      unfold spendable_vtxos get_offchain_addresses
      rw [hga]
      show (spendableLoop (clock i) nc b [(addr, vtxo)], i + 1) = (Except.error e, i + 1)
      rw [spendableLoopSingle, h2]
      rfl
  · intro lv h hf
    cases hga : get_offchain_address c with
    | mk addr vtxo =>
      have h2 : nc.list_vtxos addr = .ok lv := by rw [hga] at h; exact h
      have hf2 : b.find_outpoints vtxo.address = .error e := by rw [hga] at hf; exact hf
      unfold spendable_vtxos get_offchain_addresses
      rw [hga]
      show (spendableLoop (clock i) nc b [(addr, vtxo)], i + 1) = (Except.error e, i + 1)
      rw [spendableLoopSingle, h2]
      simp only [ok_bind]
      rw [hf2]
      rfl
  · intro lv eus h hf hneg hex
    cases hga : get_offchain_address c with
    | mk addr vtxo =>
      have h2 : nc.list_vtxos addr = .ok lv := by rw [hga] at h; exact h
      have hf2 : b.find_outpoints vtxo.address = .ok eus := by rw [hga] at hf; exact hf
      unfold spendable_vtxos get_offchain_addresses
      rw [hga]
      show (spendableLoop (clock i) nc b [(addr, vtxo)], i + 1)
        = (Except.error (Error.ad_hoc 0), i + 1)
      rw [spendableLoopSingle, h2]
      simp only [ok_bind]
      rw [hf2]
      simp only [ok_bind]
      rw [filterSpendable_error_neg hneg hex]
      rfl
  · intro j h
    unfold offchain_balance
    rw [h]
  · intro h
    unfold transaction_history get_boarding_addresses get_boarding_address
    rw [h]
    rfl
  · intro a hw hf
    rw [transactionHistoryEq w b nc g c a hw]
    have hbl : boardingAddressesLoop b [a] = .error e := by
      unfold boardingAddressesLoop
      rw [hf]
      rfl
    rw [hbl]
    rfl
  · intro a us1 u us2 hw hf hsts he
    rw [transactionHistoryEq w b nc g c a hw]
    have hbl : boardingAddressesLoop b [a] = .error e := by
      unfold boardingAddressesLoop
      rw [hf]
      simp only [ok_bind]
      rw [boardingOutpointsLoopErrorAt b e us1 u us2 hsts he]
      rfl
    rw [hbl]
    rfl
  · intro a us statusOf hw hf hst hnc
    rw [transactionHistoryEq w b nc g c a hw,
      boardingAddressesLoopSingleOk b a us statusOf hf hst]
    simp only [ok_bind]
    rw [listVtxosSingleErr nc c e hnc]
    rfl
  · intro a us statusOf lv hw hf hst hnc hi
    rw [transactionHistoryEq w b nc g c a hw,
      boardingAddressesLoopSingleOk b a us statusOf hf hst]
    simp only [ok_bind]
    rw [listVtxosSingleOk nc c lv hnc]
    simp only [ok_bind]
    rw [hi]
    rfl
  · intro a us statusOf lv inc hw hf hst hnc hi ho
    rw [transactionHistoryEq w b nc g c a hw,
      boardingAddressesLoopSingleOk b a us statusOf hf hst]
    simp only [ok_bind]
    rw [listVtxosSingleOk nc c lv hnc]
    simp only [ok_bind]
    rw [hi]
    simp only [ok_bind]
    rw [ho]
    rfl

/-- A coordinator transport that always fails. -/
def ncErr : NetworkClient :=
  { list_vtxos := fun _ => .error (.transport 1) }

/-- A blockchain source that always fails. -/
def bErr : Blockchain :=
  { find_outpoints := fun _ => .error (.chain_source 2),
    get_output_status := fun _ _ => .error (.chain_source 2) }

/-- A wallet whose boarding derivation fails. -/
def walletErr : Wallet :=
  { new_boarding_output := fun _ _ _ _ => .error (.wallet_failure 3) }

/-- A blockchain source whose output lookup succeeds but whose spend-status
query fails. -/
def bStatusErr : Blockchain :=
  { find_outpoints := fun _ => .ok [utxoSpent],
    get_output_status := fun _ _ => .error (.chain_source 4) }

/-- History generators whose incoming generator fails. -/
def gIncErr : HistoryGenerators :=
  { generate_incoming := fun _ _ _ => .error (.ad_hoc 9),
    generate_outgoing := fun _ _ => .ok [] }

/-- History generators whose outgoing generator fails. -/
def gOutErr : HistoryGenerators :=
  { generate_incoming := fun _ _ _ => .ok [],
    generate_outgoing := fun _ _ => .error (.ad_hoc 8) }

/-- A clock stuck before the epoch. -/
def clockNeg : Nat → Int := fun _ => -5

/-- A clock stuck at 100 s. -/
def clockPos : Nat → Int := fun _ => 100

/-- Witness for C5: each failure point, exercised at a concrete world. -/
theorem aggregate_error_propagation_witness :
    spendable_vtxos clockPos 0 ncErr bTr clientEx = (.error (.transport 1), 1)
    ∧ spendable_vtxos clockPos 0 ncEx bErr clientEx = (.error (.chain_source 2), 1)
    ∧ spendable_vtxos clockNeg 0 ncEx bEx clientEx = (.error (.ad_hoc 0), 1)
    ∧ offchain_balance clockPos 0 ncErr bTr clientEx = (.error (.transport 1), 1)
    ∧ transaction_history walletErr bTr ncTr gTr clientEx = .error (.wallet_failure 3)
    ∧ transaction_history walletTr bErr ncTr gTr clientEx = .error (.chain_source 2)
    ∧ transaction_history walletTr bStatusErr ncTr gTr clientEx = .error (.chain_source 4)
    ∧ transaction_history walletTr bSpent ncErr gTr clientEx = .error (.transport 1)
    ∧ transaction_history walletTr bSpent ncTr gIncErr clientEx = .error (.ad_hoc 9)
    ∧ transaction_history walletTr bSpent ncTr gOutErr clientEx = .error (.ad_hoc 8) := by
  refine ⟨?_, ?_, ?_, ?_, ?_, ?_, ?_, ?_, ?_, ?_⟩
  · exact (aggregate_error_propagation clockPos 0 ncErr bTr walletTr gTr clientEx
      (.transport 1)).1 rfl
  · exact (aggregate_error_propagation clockPos 0 ncEx bErr walletTr gTr clientEx
      (.chain_source 2)).2.1 { spendable := [unitEx], spent := [] } rfl rfl
  · exact (aggregate_error_propagation clockNeg 0 ncEx bEx walletTr gTr clientEx
      (.ad_hoc 0)).2.2.1 { spendable := [unitEx], spent := [] } [utxoEx] rfl rfl
      (by decide)
      ⟨unitEx, List.mem_singleton.mpr rfl, utxoEx, by decide, rfl⟩
  · exact (aggregate_error_propagation clockPos 0 ncErr bTr walletTr gTr clientEx
      (.transport 1)).2.2.2.1 1 rfl
  · exact (aggregate_error_propagation clockPos 0 ncTr bTr walletErr gTr clientEx
      (.wallet_failure 3)).2.2.2.2.1 rfl
  · exact (aggregate_error_propagation clockPos 0 ncTr bErr walletTr gTr clientEx
      (.chain_source 2)).2.2.2.2.2.1 { id := 3 } rfl rfl
  · exact (aggregate_error_propagation clockPos 0 ncTr bStatusErr walletTr gTr clientEx
      (.chain_source 4)).2.2.2.2.2.2.1 { id := 3 } [] utxoSpent [] rfl rfl
      (fun u2 hu2 => absurd hu2 (List.not_mem_nil u2)) rfl
  · exact (aggregate_error_propagation clockPos 0 ncErr bSpent walletTr gTr clientEx
      (.transport 1)).2.2.2.2.2.2.2.1 { id := 3 } [utxoSpent]
      (fun _ => { spend_txid := some 11 }) rfl rfl (fun u hu => rfl) rfl
  · exact (aggregate_error_propagation clockPos 0 ncTr bSpent walletTr gIncErr clientEx
      (.ad_hoc 9)).2.2.2.2.2.2.2.2.1 { id := 3 } [utxoSpent]
      (fun _ => { spend_txid := some 11 }) { spendable := [], spent := [] }
      rfl rfl (fun u hu => rfl) rfl rfl
  · exact (aggregate_error_propagation clockPos 0 ncTr bSpent walletTr gOutErr clientEx
      (.ad_hoc 8)).2.2.2.2.2.2.2.2.2 { id := 3 } [utxoSpent]
      (fun _ => { spend_txid := some 11 }) { spendable := [], spent := [] } []
      rfl rfl (fun u hu => rfl) rfl rfl rfl

end ArkClient
